import Mathlib

/-!
Verification of the gridsome core: the per-content-type node store
(src/gridsome/lib/store/ContentType.js) and the schema-composition
pass (createSchema and its helpers).

Part A embeds the node store.  A LokiJS collection is a list of rows;
a row's `$loki` handle (the spec's `internalRowRef`) is assigned at
insertion from a monotone counter and is what `collection.update`
keys on.  The collection has a unique index on `id`, so an insert or
an update that would duplicate an `id` on another row is rejected.
`$uid` is the content hash set by the external normalizer; JS
`undefined`-able inputs are modelled with `Option`.  Events and
warnings are modelled as append-only logs in the store state, and a
thrown JS exception as the `Except.error` side of the result, paired
with the (unchanged) store state the caller still holds.
-/

namespace Gridsome

/-- A node row as it lives in the collection: caller-meaningful `id`,
content hash `$uid`, the LokiJS row handle `$loki` (the spec's
`internalRowRef`), and the field values. -/
structure Node where
  id : String
  uid : String
  loki : Nat
  fields : List (String × String)
deriving Repr, DecidableEq

/-- A node as produced by the `addNode` hook chain, before the
collection has assigned (or `updateNode` has overwritten) `$loki`. -/
structure PreNode where
  id : String
  uid : String
  fields : List (String × String)
deriving Repr, DecidableEq

/-- Normalized caller options: `id` and `$uid` are absent when the JS
value is `undefined`/falsy. -/
structure NodeOptions where
  id : Option String
  uid : Option String
  fields : List (String × String)
deriving Repr, DecidableEq

/-- A LokiJS query object as used by ContentType.js: `{ id }`,
`{ $uid }`, or a query with an undefined value that matches no row. -/
inductive Query where
  | byId (id : String)
  | byUid (uid : String)
  | never
deriving Repr, DecidableEq

/-- Whether a row matches a query. -/
def Query.matches : Query → Node → Bool
  | .byId i, n => n.id == i
  | .byUid u, n => n.uid == u
  | .never, _ => false

/-- The backing LokiJS collection: rows plus the next `$loki` value. -/
structure Collection where
  nodes : List Node
  nextLoki : Nat
deriving Repr, DecidableEq

/-- `collection.findOne(query)`: first matching row or null. -/
def Collection.findOne (c : Collection) (q : Query) : Option Node :=
  c.nodes.find? (fun n => q.matches n)

/-- `collection.insert(node)`: rejects a duplicate `id` (unique
index), otherwise appends the row with a fresh `$loki`. -/
def Collection.insert (c : Collection) (p : PreNode) : Except String (Collection × Node) :=
  if c.nodes.any (fun m => m.id == p.id) then
    .error "Duplicate key for property id"
  else
    let n : Node := { id := p.id, uid := p.uid, loki := c.nextLoki, fields := p.fields }
    .ok ({ nodes := c.nodes ++ [n], nextLoki := c.nextLoki + 1 }, n)

/-- `collection.findAndRemove(query)`: removes every matching row. -/
def Collection.findAndRemove (c : Collection) (q : Query) : Collection :=
  { c with nodes := c.nodes.filter (fun n => !(q.matches n)) }

/-- `collection.update(node)`: the row is located by `$loki`; an
unknown `$loki` or a unique-index collision on `id` with another row
is rejected, otherwise the row content is swapped in place. -/
def Collection.update (c : Collection) (n : Node) : Except String Collection :=
  if !(c.nodes.any (fun m => m.loki == n.loki)) then
    .error "Trying to update unsynced document"
  else if c.nodes.any (fun m => m.loki != n.loki && m.id == n.id) then
    .error "Duplicate key for property id"
  else
    .ok { c with nodes := c.nodes.map (fun m => if m.loki == n.loki then n else m) }

/-- A lifecycle event emitted by the store. -/
inductive Event where
  | add (node : Node)
  | update (node oldNode : Node)
  | remove (node : Node)
deriving Repr, DecidableEq

/-- Observable store state: the collection, the synchronously emitted
events, and the warnings logged via `warn(message, typeName)`. -/
structure StoreState where
  coll : Collection
  events : List Event
  warnings : List (String × String)
deriving Repr, DecidableEq

/-- The pluggable `hooks.addNode` chain: maps normalized options to a
node, or vetoes with a falsy result. -/
def Hook : Type := NodeOptions → Option PreNode

/-- `ContentType.addNode`: run the hook chain (falsy aborts silently),
try the insert (a collection rejection is warned with the type name
tag and yields null), then emit `add` and return the node. -/
def addNode (hook : Hook) (typeName : String) (s : StoreState) (options : NodeOptions) :
    Option Node × StoreState :=
  match hook options with
  | none => (none, s)
  | some pre =>
    match s.coll.insert pre with
    | .error msg =>
        (none, { s with warnings := s.warnings ++ [("Failed to add node: " ++ msg, typeName)] })
    | .ok (c, node) =>
        (some node, { s with coll := c, events := s.events ++ [Event.add node] })

/-- `ContentType.getNode(id)` for a string id: `findOne({ id })`. -/
def getNode (s : StoreState) (id : String) : Option Node :=
  s.coll.findOne (Query.byId id)

/-- `ContentType.removeNode`: looks the node up; when it is absent the
JS dereference `node.$uid` on null throws, leaving the state the
caller holds untouched.  Otherwise removes by `$uid`, emits `remove`
with the pre-removal snapshot, and returns null. -/
def removeNode (s : StoreState) (q : Query) :
    Except String (Option Node) × StoreState :=
  match s.coll.findOne q with
  | none => (.error "TypeError: cannot read uid of null", s)
  | some node =>
      (.ok none,
        { s with
          coll := s.coll.findAndRemove (Query.byUid node.uid),
          events := s.events ++ [Event.remove node] })

/-- The query `updateNode` locates the prior node with:
`options.$uid ? { $uid: options.$uid } : { id: options.id }`. -/
def updateQuery (options : NodeOptions) : Query :=
  match options.uid with
  | some u => Query.byUid u
  | none =>
    match options.id with
    | some i => Query.byId i
    | none => Query.never

/-- The replacement row built by `updateNode` from the hook result:
`node.id = options.id || oldNode.id` and `node.$loki = oldNode.$loki`
are forced before the collection update. -/
def updatedNode (options : NodeOptions) (oldNode : Node) (pre : PreNode) : Node :=
  { id := options.id.getD oldNode.id
    uid := pre.uid
    loki := oldNode.loki
    fields := pre.fields }

/-- `ContentType.updateNode`: find the prior node (absence throws),
re-run the hook chain (a veto degrades to `removeNode(oldNode.id)`),
force id and `$loki` on the replacement, try the collection update
(a rejection is warned with the type-name tag and yields null with no
event), then emit `update(node, oldNode)` and return the node. -/
def updateNode (hook : Hook) (typeName : String) (s : StoreState) (options : NodeOptions) :
    Except String (Option Node) × StoreState :=
  match s.coll.findOne (updateQuery options) with
  | none =>
      (.error ("Could not find node to update with id: " ++ options.id.getD "undefined"), s)
  | some oldNode =>
    match hook options with
    | none => removeNode s (Query.byId oldNode.id)
    | some pre =>
      let node := updatedNode options oldNode pre
      match s.coll.update node with
      | .error msg =>
          (.ok none,
            { s with warnings := s.warnings ++ [("Failed to update node: " ++ msg, typeName)] })
      | .ok c =>
          (.ok (some node),
            { s with coll := c, events := s.events ++ [Event.update node oldNode] })

/-!
Part B embeds the schema-composition helpers of `createSchema`:
`createType` (name resolution of a declarative descriptor),
`processObjectFields` / `getFieldResolver` (the single wiring pass),
and `addResolvers` (the resolver overlay).

Resolver values are symbolic: `Resolve.wrapped body original` stands
for the closure
`resolve (obj, args, ctx, info) = body(obj, args, ctx, {...info, originalResolver: original})`,
i.e. `body` invoked with the superseded resolver exposed on the
invocation context under the fixed name `originalResolver`;
`Resolve.default` is graphql-compose's `defaultFieldResolver`.

A field's GraphQL type is its base type name plus list cardinality
(`GType`), so `getTypeName`, `isFieldPlural` and type replacement are
all readable from a `FieldConfig`.  JS object spread
`{...a, ...b}` over argument maps is `spreadMerge` (keys of `a` in
order with values overridden from `b`, then the keys only in `b`),
and JS `x || y` on possibly-undefined configuration values is
`Option.getD`.  `schemaComposer.getOTC` is the graphql-compose
accessor that throws when the name is not registered as an Object
type; its throw-on-miss behaviour is modelled from that library since
only this repository's caller is in scope.
-/

/-- Symbolic resolver value; `wrapped body original` is the closure
that calls `body` with `info.originalResolver = original`. -/
inductive Resolve where
  | default
  | user (name : String)
  | wrapped (body : Resolve) (original : Resolve)
deriving Repr, DecidableEq

/-- A field value type: base type name with single or list cardinality. -/
inductive GType where
  | single (name : String)
  | list (name : String)
deriving Repr, DecidableEq

/-- `fieldComposer.getTypeName()`: the base type name. -/
def GType.baseName : GType → String
  | .single n => n
  | .list n => n

/-- `typeComposer.isFieldPlural(fieldName)`: list cardinality. -/
def GType.isPlural : GType → Bool
  | .single _ => false
  | .list _ => true

/-- A field config: declared type, argument map and optional resolver. -/
structure FieldConfig where
  type : GType
  args : List (String × String)
  resolve : Option Resolve
deriving Repr, DecidableEq

/-- A registered resolver (e.g. the auto-registered `findOne` /
`findMany` of a Node-capable type): declared args and resolve fn. -/
structure ResolverDef where
  args : List (String × String)
  resolve : Option Resolve
deriving Repr, DecidableEq

/-- The kind of a registered composer. -/
inductive TypeKind where
  | object
  | union
deriving Repr, DecidableEq

/-- A type composer: name, kind, ordered field map, implemented
interfaces, registered resolvers, and the `isUserDefined` extension
set on user-contributed types. -/
structure TypeComposer where
  name : String
  kind : TypeKind
  fields : List (String × FieldConfig)
  interfaces : List String
  resolvers : List (String × ResolverDef)
  isUserDefined : Bool
deriving Repr, DecidableEq

/-- The schema composer: the registered named composers (scalar types
live outside this registry) and the name of the root query type. -/
structure SchemaComposer where
  types : List TypeComposer
  queryName : String
deriving Repr, DecidableEq

/-- Look a named composer up in the registry. -/
def SchemaComposer.get (sc : SchemaComposer) (name : String) : Option TypeComposer :=
  sc.types.find? (fun tc => tc.name == name)

/-- Replace the registered composer of the same name (composers are
mutated in place in graphql-compose). -/
def SchemaComposer.setType (sc : SchemaComposer) (tc : TypeComposer) : SchemaComposer :=
  { sc with types := sc.types.map (fun t => if t.name == tc.name then tc else t) }

/-- `typeComposer.extendField`-style in-place update of one field. -/
def TypeComposer.setField (tc : TypeComposer) (fn : String) (fc : FieldConfig) : TypeComposer :=
  { tc with fields := tc.fields.map (fun p => if p.1 = fn then (fn, fc) else p) }

/-- `typeComposer.addFields` with a single fresh field. -/
def TypeComposer.addField (tc : TypeComposer) (fn : String) (fc : FieldConfig) : TypeComposer :=
  { tc with fields := tc.fields ++ [(fn, fc)] }

/-- JS object spread `{...as, ...bs}` on argument maps: the keys of
`as` keep their order but take the value from `bs` on collision, then
the keys only in `bs` follow. -/
def spreadMerge (as bs : List (String × String)) : List (String × String) :=
  as.map (fun p =>
    match bs.lookup p.1 with
    | some v => (p.1, v)
    | none => p)
  ++ bs.filter (fun q => as.all (fun p => p.1 != q.1))

/-- An entry of a declarative resolver overlay
(`addResolvers`): optional explicit field type, optional argument
map, and the resolver function. -/
structure FieldOptions where
  type : Option GType
  args : Option (List (String × String))
  resolve : Resolve
deriving Repr, DecidableEq

/-- `getFieldResolver(typeComposer, fieldName)` of the wiring pass,
taking the field's config (which determines both `getFieldTC` and
`isFieldPlural`): when the value type is an Object implementing the
`Node` interface, select its `findMany` resolver for plural fields
and `findOne` otherwise; else fall back to the static
`scalarTypeResolvers` table keyed by the base type name. -/
def getFieldResolver (sc : SchemaComposer) (scalarResolvers : String → Option ResolverDef)
    (fc : FieldConfig) : Option ResolverDef :=
  match sc.get fc.type.baseName with
  | some ftc =>
      if ftc.kind = TypeKind.object ∧ "Node" ∈ ftc.interfaces then
        ftc.resolvers.lookup (if fc.type.isPlural then "findMany" else "findOne")
      else scalarResolvers fc.type.baseName
  | none => scalarResolvers fc.type.baseName

/-- `processObjectFields`: skip non-Object composers, the root query
type and non-user-defined types; for every field with a matching
resolver, extend the field with the spread-merged argument maps
(explicit field args winning) and a resolve that calls the existing
field resolver (or, absent one, the matched resolver) with the
matched resolver exposed as `info.originalResolver`. -/
def processObjectFields (sc : SchemaComposer) (scalarResolvers : String → Option ResolverDef)
    (tc : TypeComposer) : TypeComposer :=
  if tc.kind ≠ TypeKind.object then tc
  else if tc.name = sc.queryName then tc
  else if tc.isUserDefined = false then tc
  else
    { tc with
      fields := tc.fields.map (fun p =>
        match getFieldResolver sc scalarResolvers p.2 with
        | none => p
        | some r =>
            let originalResolver := r.resolve.getD Resolve.default
            let resolve := p.2.resolve.getD originalResolver
            (p.1,
              { p.2 with
                args := spreadMerge r.args p.2.args
                resolve := some (Resolve.wrapped resolve originalResolver) })) }

/-- One field of an `addResolvers` overlay entry: an existing target
field is extended with `type: fieldOptions.type || field.type`,
`args: fieldOptions.args || field.args` and a resolve that calls the
overlay resolver with the prior resolver (or the default one) as
`info.originalResolver`; a missing target field must declare a type,
else registration throws, and is otherwise created fresh from the
entry. -/
def addResolverField (typeName : String) (tc : TypeComposer) (fn : String)
    (fo : FieldOptions) : Except String TypeComposer :=
  match tc.fields.lookup fn with
  | some field =>
      let originalResolver := field.resolve.getD Resolve.default
      .ok (tc.setField fn
        { type := fo.type.getD field.type
          args := fo.args.getD field.args
          resolve := some (Resolve.wrapped fo.resolve originalResolver) })
  | none =>
      match fo.type with
      | none => .error (typeName ++ "." ++ fn ++ " must have a type property.")
      | some t =>
          .ok (tc.addField fn
            { type := t, args := fo.args.getD [], resolve := some fo.resolve })

/-- `schemaComposer.getOTC(typeName)`.  Modelled from graphql-compose:
it throws when no type of that name is registered, and when the
registered type is not an Object type composer. -/
def getOTC (sc : SchemaComposer) (name : String) : Except String TypeComposer :=
  match sc.get name with
  | none => .error ("Cannot find ObjectTypeComposer with name " ++ name)
  | some tc =>
      if tc.kind = TypeKind.object then .ok tc
      else .error ("Cannot find ObjectTypeComposer with name " ++ name)

/-- The inner `for (const fieldName in fields)` loop of
`addResolvers`: apply every field of one overlay entry in order,
propagating a thrown error. -/
def applyResolverFields (typeName : String) (tc : TypeComposer) :
    List (String × FieldOptions) → Except String TypeComposer
  | [] => .ok tc
  | (fn, fo) :: rest =>
    match addResolverField typeName tc fn fo with
    | .error e => .error e
    | .ok tc2 => applyResolverFields typeName tc2 rest

/-- One overlay entry of `addResolvers`: fetch the Object composer of
the keyed type (throws before any field is touched when the type is
absent), then apply every field of the entry in order. -/
def addResolversForType (sc : SchemaComposer) (typeName : String)
    (fields : List (String × FieldOptions)) : Except String SchemaComposer :=
  match getOTC sc typeName with
  | .error e => .error e
  | .ok tc =>
    match applyResolverFields typeName tc fields with
    | .error e => .error e
    | .ok tc2 => .ok (sc.setType tc2)

/-- `addResolvers(schemaComposer, resolvers)`: apply each per-type
entry of the overlay map in order. -/
def addResolvers (sc : SchemaComposer) :
    List (String × List (String × FieldOptions)) → Except String SchemaComposer
  | [] => .ok sc
  | (tn, fields) :: rest =>
    match addResolversForType sc tn fields with
    | .error e => .error e
    | .ok sc2 => addResolvers sc2 rest

/-- The kind tag of a declarative type descriptor
(`CreatedGraphQLType` from utils). -/
inductive CreatedGraphQLType where
  | object
  | union
deriving Repr, DecidableEq

/-- The options block of a declarative type descriptor; a missing or
falsy JS `name` is the empty string. -/
structure TypeOptions where
  name : String
  fields : List (String × FieldConfig)
deriving Repr, DecidableEq

/-- A declarative type descriptor passed to `addTypes`/`createType`. -/
structure TypeDescriptor where
  type : CreatedGraphQLType
  options : TypeOptions
deriving Repr, DecidableEq

/-- `createType(schemaComposer, type, path)`: with no resolvable name
at the top of the naming path registration throws; otherwise an
explicit name wins and a missing one is synthesized by
`createTypeName(path.join(' '))` (the synthesizer is a parameter
since utils is outside this repository slice); the descriptor then
becomes an Object or Union composer. -/
def createType (createTypeName : String → String) (t : TypeDescriptor)
    (path : List String) : Except String TypeComposer :=
  if t.options.name = "" ∧ path.length = 1 then
    .error "Missing required type name."
  else
    let name := if t.options.name = "" then createTypeName (String.intercalate " " path)
                else t.options.name
    match t.type with
    | .object =>
        .ok { name := name, kind := TypeKind.object, fields := t.options.fields,
              interfaces := [], resolvers := [], isUserDefined := false }
    | .union =>
        .ok { name := name, kind := TypeKind.union, fields := [],
              interfaces := [], resolvers := [], isUserDefined := false }

/-- A concrete hook chain that accepts every candidate, deriving the
content hash from the id. -/
def exHook : Hook := fun o => some { id := o.id.getD "", uid := o.id.getD "", fields := o.fields }

/-- A hook chain that vetoes every candidate. -/
def exVeto : Hook := fun _ => none

/-- An empty store. -/
def exState0 : StoreState := { coll := { nodes := [], nextLoki := 0 }, events := [], warnings := [] }

/-- The node produced by inserting id `a1` through `exHook`. -/
def exNode1 : Node := { id := "a1", uid := "a1", loki := 0, fields := [("t", "1")] }

/-- The store after that insertion. -/
def exState1 : StoreState :=
  { coll := { nodes := [exNode1], nextLoki := 1 }, events := [Event.add exNode1], warnings := [] }

/-- A first resident of a two-node store. -/
def exNodeA : Node := { id := "a1", uid := "u1", loki := 0, fields := [] }

/-- A second resident of a two-node store. -/
def exNodeB : Node := { id := "a2", uid := "u2", loki := 1, fields := [] }

/-- A store holding two nodes with distinct ids and hashes. -/
def exState2 : StoreState :=
  { coll := { nodes := [exNodeA, exNodeB], nextLoki := 2 }, events := [], warnings := [] }

/-- An existing field with a declared type, one argument and no
explicit resolver. -/
def exField : FieldConfig :=
  { type := GType.single "String", args := [("b", "Int")], resolve := none }

/-- A registered Object type carrying `exField` under `foo`. -/
def exOverlayTC : TypeComposer :=
  { name := "T", kind := TypeKind.object, fields := [("foo", exField)],
    interfaces := [], resolvers := [], isUserDefined := true }

/-- An overlay entry declaring its own type and argument map. -/
def exFO : FieldOptions :=
  { type := some (GType.single "Int"), args := some [("a", "Int")],
    resolve := Resolve.user "r" }

/-- The auto-registered find-one resolver of the example Node type. -/
def exFindOne : ResolverDef :=
  { args := [("id", "ID"), ("x", "String")], resolve := some (Resolve.user "findOneAuthor") }

/-- The auto-registered find-many resolver of the example Node type. -/
def exFindMany : ResolverDef :=
  { args := [("id", "ID")], resolve := some (Resolve.user "findManyAuthor") }

/-- A Node-capable Object type with its auto-registered resolvers. -/
def exAuthor : TypeComposer :=
  { name := "Author", kind := TypeKind.object, fields := [], interfaces := ["Node"],
    resolvers := [("findOne", exFindOne), ("findMany", exFindMany)], isUserDefined := true }

/-- A user-defined Object type with a singular reference field
`author` carrying one explicitly authored argument. -/
def exPost : TypeComposer :=
  { name := "Post", kind := TypeKind.object,
    fields := [("author",
      { type := GType.single "Author", args := [("x", "Int")], resolve := none })],
    interfaces := [], resolvers := [], isUserDefined := true }

/-- A schema composer holding the two example types. -/
def exSC : SchemaComposer := { types := [exPost, exAuthor], queryName := "Query" }

/-! Helper lemmas about the collection primitives. -/

/-- In a collection whose ids are pairwise distinct, the first row
found by id for a member row is that row itself. -/
theorem find_byId_of_nodup (l : List Node) (a : Node)
    (hmem : a ∈ l) (hnd : (l.map Node.id).Nodup) :
    l.find? (fun m => m.id == a.id) = some a := by
  induction l with
  | nil => cases hmem
  | cons x t ih =>
    rw [List.map_cons, List.nodup_cons] at hnd
    by_cases hx : x.id = a.id
    · have hxa : x = a := by
        cases hmem with
        | head => rfl
        | tail _ hta =>
          exact absurd (hx ▸ List.mem_map_of_mem Node.id hta) hnd.1
      subst hxa
      simp
    · have hmem' : a ∈ t := by
        cases hmem with
        | head => exact absurd rfl hx
        | tail _ hta => exact hta
      rw [List.find?_cons_of_neg _ (by simp [hx])]
      exact ih hmem' hnd.2

/-- Removing a member row by its content hash, when hashes are
pairwise distinct, removes exactly one row. -/
theorem filter_uid_length (l : List Node) (a : Node)
    (hmem : a ∈ l) (hnd : (l.map Node.uid).Nodup) :
    (l.filter (fun m => !(m.uid == a.uid))).length + 1 = l.length := by
  induction l with
  | nil => cases hmem
  | cons x t ih =>
    rw [List.map_cons, List.nodup_cons] at hnd
    by_cases hx : x.uid = a.uid
    · rw [List.filter_cons_of_neg (by simp [hx])]
      have ht : t.filter (fun m => !(m.uid == a.uid)) = t := by
        rw [List.filter_eq_self]
        intro m hm
        simp only [Bool.not_eq_true']
        have : m.uid ≠ a.uid := fun he =>
          hnd.1 (hx ▸ he ▸ List.mem_map_of_mem Node.uid hm)
        simp [this]
      rw [ht]
      simp
    · have hmem' : a ∈ t := by
        cases hmem with
        | head => exact absurd rfl hx
        | tail _ hta => exact hta
      rw [List.filter_cons_of_pos (by simp [hx])]
      simp only [List.length_cons]
      rw [ih hmem' hnd.2]

/-- After an in-place row swap keyed on `$loki`, looking the new id up
finds exactly the swapped row, provided some row carried that `$loki`
and no other row collides on the new id (the unique-index condition
`Collection.update` checks). -/
theorem find_updated (l : List Node) (n : Node)
    (hcol : ∀ m ∈ l, m.loki ≠ n.loki → m.id ≠ n.id)
    (hex : ∃ m ∈ l, m.loki = n.loki) :
    (l.map (fun m => if m.loki == n.loki then n else m)).find? (fun m => m.id == n.id) =
      some n := by
  induction l with
  | nil => obtain ⟨m, hm, _⟩ := hex; cases hm
  | cons x t ih =>
    by_cases hx : x.loki = n.loki
    · simp [hx]
    · have hid : x.id ≠ n.id := hcol x (List.mem_cons_self x t) hx
      rw [List.map_cons, if_neg (by simp [hx]), List.find?_cons_of_neg _ (by simp [hid])]
      refine ih (fun m hm => hcol m (List.mem_cons_of_mem x hm)) ?_
      obtain ⟨m, hm, hml⟩ := hex
      cases hm with
      | head => exact absurd hml hx
      | tail _ hmt => exact ⟨m, hmt, hml⟩

/-! Claim theorems for the node store. -/

/-- C7: for every node inserted with a unique id, `getNode` with that
id returns a structurally equal node, and after `removeNode` with
that id, `getNode` with that id returns null. -/
theorem addNode_then_getNode_then_removeNode (hook : Hook) (tn : String) (s : StoreState)
    (opts : NodeOptions) (n : Node) (s1 : StoreState)
    (h : addNode hook tn s opts = (some n, s1)) :
    getNode s1 n.id = some n ∧
    getNode (removeNode s1 (Query.byId n.id)).2 n.id = none := by
  cases hh : hook opts with
  | none => simp [addNode, hh] at h
  | some pre =>
    by_cases hdup : (s.coll.nodes.any (fun m => m.id == pre.id)) = true
    · simp [addNode, Collection.insert, hh, hdup] at h
    · simp only [addNode, Collection.insert, hh, if_neg hdup,
        Prod.mk.injEq, Option.some.injEq] at h
      obtain ⟨hn, hs⟩ := h
      subst hs
      subst hn
      have hnone : ∀ m ∈ s.coll.nodes, ¬((m.id == pre.id) = true) := fun m hm hc =>
        hdup (List.any_eq_true.mpr ⟨m, hm, hc⟩)
      have hfind : (s.coll.nodes ++
          [({ id := pre.id, uid := pre.uid, loki := s.coll.nextLoki,
              fields := pre.fields } : Node)]).find? (fun m => m.id == pre.id) =
          some { id := pre.id, uid := pre.uid, loki := s.coll.nextLoki,
                 fields := pre.fields } := by
        rw [List.find?_append, List.find?_eq_none.mpr hnone]
        simp
      constructor
      · simpa [getNode, Collection.findOne, Query.matches] using hfind
      · simp only [getNode, removeNode, Collection.findOne, Collection.findAndRemove,
          Query.matches]
        rw [hfind]
        simp only []
        rw [List.find?_eq_none]
        intro m hm
        rw [List.mem_filter, List.mem_append] at hm
        obtain ⟨hmem, hpred⟩ := hm
        cases hmem with
        | inl hmeml => exact hnone m hmeml
        | inr hmemr =>
          simp only [List.mem_singleton] at hmemr
          subst hmemr
          simp at hpred

/-- C7 witness at a concrete insertion into the empty store. -/
theorem addNode_then_getNode_then_removeNode_witness :
    getNode exState1 exNode1.id = some exNode1 ∧
    getNode (removeNode exState1 (Query.byId exNode1.id)).2 exNode1.id = none :=
  addNode_then_getNode_then_removeNode exHook "T" exState0
    { id := some "a1", uid := none, fields := [("t", "1")] } exNode1 exState1 (by rfl)

/-- C3: for an existing node, a successful `updateNode` preserves the
`$loki` row handle, keeps the id (input first, else prior node),
leaves the node count unchanged, makes the hook-produced field values
immediately visible through `getNode`, and emits `update` with the
new and old node (and logs no warning). -/
theorem updateNode_preserves_rowRef_count_events (hook : Hook) (tn : String) (s : StoreState)
    (opts : NodeOptions) (oldNode : Node) (pre : PreNode) (n : Node) (s' : StoreState)
    (hfind : s.coll.findOne (updateQuery opts) = some oldNode)
    (hpre : hook opts = some pre)
    (h : updateNode hook tn s opts = (.ok (some n), s')) :
    n.loki = oldNode.loki ∧
    n.id = opts.id.getD oldNode.id ∧
    n.fields = pre.fields ∧
    s'.coll.nodes.length = s.coll.nodes.length ∧
    getNode s' n.id = some n ∧
    s'.events = s.events ++ [Event.update n oldNode] ∧
    s'.warnings = s.warnings := by
  by_cases hex :
      (s.coll.nodes.any (fun m => m.loki == (updatedNode opts oldNode pre).loki)) = true
  · by_cases hcol :
        (s.coll.nodes.any (fun m =>
          m.loki != (updatedNode opts oldNode pre).loki &&
          m.id == (updatedNode opts oldNode pre).id)) = true
    · simp [updateNode, Collection.update, hfind, hpre, hex, hcol] at h
    · simp only [updateNode, Collection.update, hfind, hpre, hex, Bool.not_true,
        Bool.false_eq_true, if_false, if_neg hcol, Prod.mk.injEq, Except.ok.injEq,
        Option.some.injEq] at h
      obtain ⟨hn, hs⟩ := h
      subst hs
      subst hn
      refine ⟨rfl, rfl, rfl, by simp, ?_, rfl, rfl⟩
      have hcol' : ∀ m ∈ s.coll.nodes,
          m.loki ≠ (updatedNode opts oldNode pre).loki →
          m.id ≠ (updatedNode opts oldNode pre).id := by
        intro m hm hl hi
        exact hcol (List.any_eq_true.mpr ⟨m, hm, by simp [hl, hi]⟩)
      have hex' : ∃ m ∈ s.coll.nodes, m.loki = (updatedNode opts oldNode pre).loki := by
        obtain ⟨m, hm, hml⟩ := List.any_eq_true.mp hex
        exact ⟨m, hm, by simpa using hml⟩
      simpa [getNode, Collection.findOne, Query.matches] using
        find_updated s.coll.nodes (updatedNode opts oldNode pre) hcol' hex'
  · simp [updateNode, Collection.update, hfind, hpre, hex] at h

/-- C3 witness: updating the single stored node with new field values. -/
theorem updateNode_preserves_witness :
    ({ id := "a1", uid := "a1", loki := 0, fields := [("t", "2")] } : Node).loki =
        exNode1.loki ∧
    ({ id := "a1", uid := "a1", loki := 0, fields := [("t", "2")] } : Node).id =
        (some "a1").getD exNode1.id ∧
    ({ id := "a1", uid := "a1", loki := 0, fields := [("t", "2")] } : Node).fields =
        ({ id := "a1", uid := "a1", fields := [("t", "2")] } : PreNode).fields ∧
    ({ coll := { nodes := [{ id := "a1", uid := "a1", loki := 0, fields := [("t", "2")] }],
                 nextLoki := 1 },
       events := [Event.add exNode1,
                  Event.update { id := "a1", uid := "a1", loki := 0, fields := [("t", "2")] }
                    exNode1],
       warnings := [] } : StoreState).coll.nodes.length = exState1.coll.nodes.length ∧
    getNode
      { coll := { nodes := [{ id := "a1", uid := "a1", loki := 0, fields := [("t", "2")] }],
                  nextLoki := 1 },
        events := [Event.add exNode1,
                   Event.update { id := "a1", uid := "a1", loki := 0, fields := [("t", "2")] }
                     exNode1],
        warnings := [] }
      ({ id := "a1", uid := "a1", loki := 0, fields := [("t", "2")] } : Node).id =
        some { id := "a1", uid := "a1", loki := 0, fields := [("t", "2")] } ∧
    ({ coll := { nodes := [{ id := "a1", uid := "a1", loki := 0, fields := [("t", "2")] }],
                 nextLoki := 1 },
       events := [Event.add exNode1,
                  Event.update { id := "a1", uid := "a1", loki := 0, fields := [("t", "2")] }
                    exNode1],
       warnings := [] } : StoreState).events =
      exState1.events ++
        [Event.update { id := "a1", uid := "a1", loki := 0, fields := [("t", "2")] } exNode1] ∧
    ({ coll := { nodes := [{ id := "a1", uid := "a1", loki := 0, fields := [("t", "2")] }],
                 nextLoki := 1 },
       events := [Event.add exNode1,
                  Event.update { id := "a1", uid := "a1", loki := 0, fields := [("t", "2")] }
                    exNode1],
       warnings := [] } : StoreState).warnings = exState1.warnings :=
  updateNode_preserves_rowRef_count_events exHook "T" exState1
    { id := some "a1", uid := none, fields := [("t", "2")] } exNode1
    { id := "a1", uid := "a1", fields := [("t", "2")] }
    { id := "a1", uid := "a1", loki := 0, fields := [("t", "2")] }
    { coll := { nodes := [{ id := "a1", uid := "a1", loki := 0, fields := [("t", "2")] }],
                nextLoki := 1 },
      events := [Event.add exNode1,
                 Event.update { id := "a1", uid := "a1", loki := 0, fields := [("t", "2")] }
                   exNode1],
      warnings := [] }
    (by rfl) (by rfl) (by rfl)

/-- C4: `updateNode` and `removeNode` on an id absent from the
collection raise an error surfaced to the caller and leave the store
state — count, contents, events, warnings — exactly as it was. -/
theorem updateNode_removeNode_missing_id_fatal (hook : Hook) (tn : String) (s : StoreState)
    (i : String) (fs : List (String × String))
    (h : getNode s i = none) :
    updateNode hook tn s { id := some i, uid := none, fields := fs } =
      (.error ("Could not find node to update with id: " ++ i), s) ∧
    removeNode s (Query.byId i) = (.error "TypeError: cannot read uid of null", s) := by
  have h' : s.coll.findOne (Query.byId i) = none := h
  have hq : updateQuery { id := some i, uid := none, fields := fs } = Query.byId i := rfl
  constructor
  · simp [updateNode, hq, h']
  · simp [removeNode, h']

/-- C4 witness on the empty store. -/
theorem updateNode_removeNode_missing_id_fatal_witness :
    updateNode exHook "T" exState0 { id := some "zz", uid := none, fields := [] } =
      (.error "Could not find node to update with id: zz", exState0) ∧
    removeNode exState0 (Query.byId "zz") =
      (.error "TypeError: cannot read uid of null", exState0) :=
  updateNode_removeNode_missing_id_fatal exHook "T" exState0 "zz" [] (by rfl)

/-- C5: when the hook chain vetoes during `updateNode` on an existing
node, the operation degrades to removal of the prior node: the call
returns null, the node count drops by one, and a single `remove`
event with the prior node — no `update` event — is emitted. -/
theorem updateNode_hook_veto_degrades_to_removal (hook : Hook) (tn : String) (s : StoreState)
    (opts : NodeOptions) (oldNode : Node)
    (hfind : s.coll.findOne (updateQuery opts) = some oldNode)
    (hveto : hook opts = none)
    (hids : (s.coll.nodes.map Node.id).Nodup)
    (huids : (s.coll.nodes.map Node.uid).Nodup) :
    updateNode hook tn s opts =
      (.ok none,
        { s with
          coll := s.coll.findAndRemove (Query.byUid oldNode.uid),
          events := s.events ++ [Event.remove oldNode] }) ∧
    (s.coll.findAndRemove (Query.byUid oldNode.uid)).nodes.length + 1 =
      s.coll.nodes.length := by
  have hfind' : s.coll.nodes.find? (fun m => (updateQuery opts).matches m) = some oldNode :=
    hfind
  have hmem : oldNode ∈ s.coll.nodes := List.mem_of_find?_eq_some hfind'
  have hbyId : s.coll.findOne (Query.byId oldNode.id) = some oldNode := by
    show s.coll.nodes.find? (fun m => (Query.byId oldNode.id).matches m) = some oldNode
    simp only [Query.matches]
    exact find_byId_of_nodup s.coll.nodes oldNode hmem hids
  constructor
  · simp [updateNode, removeNode, hfind, hveto, hbyId]
  · simpa [Collection.findAndRemove, Query.matches] using
      filter_uid_length s.coll.nodes oldNode hmem huids

/-- C5 witness: a vetoed update of the single stored node. -/
theorem updateNode_hook_veto_witness :
    updateNode exVeto "T" exState1 { id := some "a1", uid := none, fields := [] } =
      (.ok none,
        { exState1 with
          coll := exState1.coll.findAndRemove (Query.byUid exNode1.uid),
          events := exState1.events ++ [Event.remove exNode1] }) ∧
    (exState1.coll.findAndRemove (Query.byUid exNode1.uid)).nodes.length + 1 =
      exState1.coll.nodes.length :=
  updateNode_hook_veto_degrades_to_removal exVeto "T" exState1
    { id := some "a1", uid := none, fields := [] } exNode1
    (by rfl) (by rfl) (by decide) (by decide)

/-- C6: a hook veto makes `addNode` return null with no event and no
mutation; a collection rejection of the insert logs a warning tagged
with the content-type name and returns null with no event and no
mutation; a collection rejection of the update after a successful
hook pass likewise returns null, fires no event, leaves the
collection untouched, and logs a tagged warning. -/
theorem add_update_failure_branches (hook : Hook) (tn : String) (s : StoreState)
    (opts : NodeOptions) :
    (hook opts = none → addNode hook tn s opts = (none, s)) ∧
    (∀ pre msg, hook opts = some pre → s.coll.insert pre = .error msg →
      addNode hook tn s opts =
        (none, { s with warnings := s.warnings ++ [("Failed to add node: " ++ msg, tn)] })) ∧
    (∀ oldNode pre msg,
      s.coll.findOne (updateQuery opts) = some oldNode →
      hook opts = some pre →
      s.coll.update (updatedNode opts oldNode pre) = .error msg →
      updateNode hook tn s opts =
        (.ok none,
          { s with warnings := s.warnings ++ [("Failed to update node: " ++ msg, tn)] })) := by
  refine ⟨fun hv => by simp [addNode, hv],
    fun pre msg hh hi => by simp [addNode, hh, hi],
    fun oldNode pre msg hf hh hu => by simp [updateNode, hf, hh, hu]⟩

/-- C6 witness: a vetoed insert, a duplicate-id insert, and an update
whose collection commit hits the unique-id index. -/
theorem add_update_failure_branches_witness :
    addNode exVeto "T" exState0 { id := some "a1", uid := none, fields := [] } =
      (none, exState0) ∧
    addNode exHook "T" exState1 { id := some "a1", uid := none, fields := [("t", "9")] } =
      (none,
        { exState1 with
          warnings := exState1.warnings ++
            [("Failed to add node: Duplicate key for property id", "T")] }) ∧
    updateNode exHook "T" exState2 { id := some "a2", uid := some "u1", fields := [] } =
      (.ok none,
        { exState2 with
          warnings := exState2.warnings ++
            [("Failed to update node: Duplicate key for property id", "T")] }) :=
  ⟨(add_update_failure_branches exVeto "T" exState0
      { id := some "a1", uid := none, fields := [] }).1 rfl,
   (add_update_failure_branches exHook "T" exState1
      { id := some "a1", uid := none, fields := [("t", "9")] }).2.1
     { id := "a1", uid := "a1", fields := [("t", "9")] } _ rfl (by rfl),
   (add_update_failure_branches exHook "T" exState2
      { id := some "a2", uid := some "u1", fields := [] }).2.2 exNodeA
     { id := "a2", uid := "a2", fields := [] } _ (by rfl) rfl (by rfl)⟩

/-! Helper lemmas about association-list lookup under spread-merge
and in-place field update. -/

/-- Lookup distributes over list append. -/
theorem lookup_append (l1 l2 : List (String × String)) (k : String) :
    (l1 ++ l2).lookup k = ((l1.lookup k).or (l2.lookup k)) := by
  induction l1 with
  | nil => simp [List.lookup]
  | cons p t ih =>
    obtain ⟨k1, v1⟩ := p
    by_cases hk : (k == k1) = true
    · simp [List.lookup, hk]
    · simp [List.lookup, hk, ih]

/-- A key present in `as` is found in the override-mapped list with
the `bs` value when `bs` has the key, else with its own value. -/
theorem lookup_map_override (as bs : List (String × String)) (k v : String)
    (h : as.lookup k = some v) :
    (as.map (fun p =>
      match bs.lookup p.1 with
      | some w => (p.1, w)
      | none => p)).lookup k = some ((bs.lookup k).getD v) := by
  induction as with
  | nil => simp [List.lookup] at h
  | cons p t ih =>
    obtain ⟨k1, v1⟩ := p
    by_cases hk : (k == k1) = true
    · have hkk : k = k1 := by simpa using hk
      subst hkk
      have hv : v1 = v := by simpa [List.lookup] using h
      subst hv
      cases hb : bs.lookup k with
      | none => simp [List.lookup, hb]
      | some w => simp [List.lookup, hb]
    · have h' : t.lookup k = some v := by
        simpa [List.lookup, hk] using h
      cases hb : bs.lookup k1 with
      | none => simpa [List.lookup, hk, hb] using ih h'
      | some w => simpa [List.lookup, hk, hb] using ih h'

/-- A key absent from `as` stays absent from the override-mapped list. -/
theorem lookup_map_override_none (as bs : List (String × String)) (k : String)
    (h : as.lookup k = none) :
    (as.map (fun p =>
      match bs.lookup p.1 with
      | some w => (p.1, w)
      | none => p)).lookup k = none := by
  induction as with
  | nil => simp [List.lookup]
  | cons p t ih =>
    obtain ⟨k1, v1⟩ := p
    by_cases hk : (k == k1) = true
    · simp [List.lookup, hk] at h
    · have h' : t.lookup k = none := by simpa [List.lookup, hk] using h
      cases hb : bs.lookup k1 with
      | none => simpa [List.lookup, hk, hb] using ih h'
      | some w => simpa [List.lookup, hk, hb] using ih h'

/-- Lookup of a key absent from `as` in keys is unaffected by
filtering out the `as` keys. -/
theorem lookup_filter_notin (as bs : List (String × String)) (k : String)
    (h : ∀ p ∈ as, p.1 ≠ k) :
    (bs.filter (fun q => as.all (fun p => p.1 != q.1))).lookup k = bs.lookup k := by
  induction bs with
  | nil => simp
  | cons q t ih =>
    obtain ⟨k2, v2⟩ := q
    by_cases hk : (k == k2) = true
    · have hkk : k = k2 := by simpa using hk
      subst hkk
      have hall : (as.all (fun p => p.1 != k)) = true := by
        rw [List.all_eq_true]
        intro p hp
        simpa using h p hp
      rw [List.filter_cons_of_pos (by simpa using hall)]
      simp [List.lookup]
    · by_cases hall : (as.all (fun p => p.1 != k2)) = true
      · rw [List.filter_cons_of_pos (by simpa using hall)]
        simp [List.lookup, hk, ih]
      · rw [List.filter_cons_of_neg (by simpa using hall)]
        simp [List.lookup, hk, ih]

/-- A failed lookup means no entry carries the key. -/
theorem lookup_eq_none_keys (as : List (String × String)) (k : String)
    (h : as.lookup k = none) : ∀ p ∈ as, p.1 ≠ k := by
  intro p hp he
  have := List.lookup_eq_none_iff.mp h p hp
  rw [he] at this
  simp at this

/-- The JS spread `{...as, ...bs}` looks keys up in `bs` first and
falls back to `as`: the later spread wins on name collision. -/
theorem lookup_spreadMerge (as bs : List (String × String)) (k : String) :
    (spreadMerge as bs).lookup k = ((bs.lookup k).or (as.lookup k)) := by
  unfold spreadMerge
  rw [lookup_append]
  cases h : as.lookup k with
  | none =>
    rw [lookup_map_override_none as bs k h,
      lookup_filter_notin as bs k (lookup_eq_none_keys as k h)]
    cases bs.lookup k <;> simp [Option.or]
  | some v =>
    rw [lookup_map_override as bs k v h]
    cases hb : bs.lookup k <;> simp [Option.or, hb]

/-- After an in-place field replacement keyed on the field name, the
lookup of that name yields the replacement, provided the field
existed. -/
theorem lookup_setField (fields : List (String × FieldConfig)) (fn : String)
    (fc v : FieldConfig) (h : fields.lookup fn = some v) :
    (fields.map (fun p => if p.1 = fn then (fn, fc) else p)).lookup fn = some fc := by
  induction fields with
  | nil => simp [List.lookup] at h
  | cons p t ih =>
    obtain ⟨k1, v1⟩ := p
    by_cases hk : k1 = fn
    · subst hk
      simp
    · have hk' : (fn == k1) = false := by simp [Ne.symm hk]
      have h' : t.lookup fn = some v := by
        simpa [List.lookup_cons, hk'] using h
      simpa [hk, List.lookup_cons, hk'] using ih h'

/-! Claim theorems for the schema-composition pass. -/

/-- C1 counterexample: at a concrete overlay on an existing field the
code replaces the declared type with the overlay's (`Int`, not the
preserved `String`) and replaces the argument map wholesale — the
existing argument `b` is gone, whereas a merge with the overlay
winning (`spreadMerge`) would have kept it. -/
theorem addResolvers_overlay_counterexample :
    addResolverField "T" exOverlayTC "foo" exFO =
      .ok { name := "T", kind := TypeKind.object,
            fields := [("foo",
              { type := GType.single "Int", args := [("a", "Int")],
                resolve := some (Resolve.wrapped (Resolve.user "r") Resolve.default) })],
            interfaces := [], resolvers := [], isUserDefined := true } ∧
    GType.single "Int" ≠ GType.single "String" ∧
    ([("a", "Int")] : List (String × String)).lookup "b" = none ∧
    (spreadMerge [("b", "Int")] [("a", "Int")]).lookup "b" = some "Int" :=
  ⟨by rfl, by decide, by rfl, by rfl⟩

/-- C1 (amended): when a resolver overlay targets an existing field,
the overlay's resolver wraps the existing one with the prior resolver
exposed on the invocation context under the fixed name
`originalResolver`; the field keeps its declared type only when the
overlay declares none (an overlay type wins); and the argument maps
are not merged — the overlay's argument map, when present, replaces
the existing one entirely, which is kept only when the overlay
declares none. -/
theorem addResolvers_overlay_existing (tn : String) (tc : TypeComposer) (fn : String)
    (fo : FieldOptions) (field : FieldConfig)
    (h : tc.fields.lookup fn = some field) :
    addResolverField tn tc fn fo =
      .ok (tc.setField fn
        { type := fo.type.getD field.type
          args := fo.args.getD field.args
          resolve := some (Resolve.wrapped fo.resolve
            (field.resolve.getD Resolve.default)) }) ∧
    (tc.setField fn
      { type := fo.type.getD field.type
        args := fo.args.getD field.args
        resolve := some (Resolve.wrapped fo.resolve
          (field.resolve.getD Resolve.default)) }).fields.lookup fn =
      some
        { type := fo.type.getD field.type
          args := fo.args.getD field.args
          resolve := some (Resolve.wrapped fo.resolve
            (field.resolve.getD Resolve.default)) } := by
  refine ⟨by simp [addResolverField, h], ?_⟩
  show (tc.fields.map _).lookup fn = _
  exact lookup_setField tc.fields fn _ field h

/-- C1 witness at the concrete overlay of the counterexample. -/
theorem addResolvers_overlay_existing_witness :
    addResolverField "T" exOverlayTC "foo" exFO =
      .ok (exOverlayTC.setField "foo"
        { type := GType.single "Int", args := [("a", "Int")],
          resolve := some (Resolve.wrapped (Resolve.user "r") Resolve.default) }) ∧
    (exOverlayTC.setField "foo"
      { type := GType.single "Int", args := [("a", "Int")],
        resolve := some (Resolve.wrapped (Resolve.user "r") Resolve.default) }).fields.lookup
        "foo" =
      some { type := GType.single "Int", args := [("a", "Int")],
             resolve := some (Resolve.wrapped (Resolve.user "r") Resolve.default) } :=
  addResolvers_overlay_existing "T" exOverlayTC "foo" exFO exField (by rfl)

/-- C2: in the wiring pass, on a user-defined Object type other than
the root query type, a field whose value type is a registered Object
type implementing `Node` is extended with that type's auto-registered
`findOne` resolver for singular cardinality and `findMany` for list
cardinality: the field keeps its declared type, the resolver's
declared arguments are spread-merged with the explicitly authored
field arguments — the explicit field arguments winning on name
collision — and the new resolve reaches the selected resolver as
`info.originalResolver`. -/
theorem processObjectFields_node_field (sc : SchemaComposer)
    (scalarResolvers : String → Option ResolverDef) (tc : TypeComposer)
    (fn : String) (fc : FieldConfig) (ftc : TypeComposer) (r : ResolverDef)
    (hkind : tc.kind = TypeKind.object)
    (hq : tc.name ≠ sc.queryName)
    (hud : tc.isUserDefined = true)
    (hmem : (fn, fc) ∈ tc.fields)
    (hftc : sc.get fc.type.baseName = some ftc)
    (hfkind : ftc.kind = TypeKind.object)
    (hnode : "Node" ∈ ftc.interfaces)
    (hres : ftc.resolvers.lookup (if fc.type.isPlural then "findMany" else "findOne") =
      some r) :
    (fn,
      { fc with
        args := spreadMerge r.args fc.args
        resolve := some (Resolve.wrapped
          (fc.resolve.getD (r.resolve.getD Resolve.default))
          (r.resolve.getD Resolve.default)) }) ∈
      (processObjectFields sc scalarResolvers tc).fields ∧
    ∀ k, (spreadMerge r.args fc.args).lookup k =
      ((fc.args.lookup k).or (r.args.lookup k)) := by
  refine ⟨?_, fun k => lookup_spreadMerge r.args fc.args k⟩
  have hres' : getFieldResolver sc scalarResolvers fc = some r := by
    simp [getFieldResolver, hftc, hfkind, hnode, hres]
  simp only [processObjectFields, if_neg (by simp [hkind] : ¬tc.kind ≠ TypeKind.object),
    if_neg hq, if_neg (by simp [hud] : ¬tc.isUserDefined = false)]
  refine List.mem_map.mpr ⟨(fn, fc), hmem, ?_⟩
  simp [hres']

/-- C2 witness: the singular reference field `Post.author` targeting
the Node-capable `Author` type, with an explicit argument `x`
shadowing the resolver's declared `x`. -/
theorem processObjectFields_node_field_witness :
    ("author",
      { type := GType.single "Author", args := [("id", "ID"), ("x", "Int")],
        resolve := some (Resolve.wrapped (Resolve.user "findOneAuthor")
          (Resolve.user "findOneAuthor")) }) ∈
      (processObjectFields exSC (fun _ => none) exPost).fields ∧
    ∀ k, (spreadMerge [("id", "ID"), ("x", "String")] [("x", "Int")]).lookup k =
      (([("x", "Int")] : List (String × String)).lookup k).or
        (([("id", "ID"), ("x", "String")] : List (String × String)).lookup k) :=
  processObjectFields_node_field exSC (fun _ => none) exPost "author"
    { type := GType.single "Author", args := [("x", "Int")], resolve := none }
    exAuthor exFindOne
    (by decide) (by decide) (by rfl) (by simp [exPost]) (by rfl) (by rfl)
    (by simp [exAuthor]) (by rfl)

/-- C8: `createType` uses an explicitly given name; a missing one is
synthesized by joining the hierarchical naming path; a descriptor
with no name at the top of a length-one path fails registration. -/
theorem createType_name_resolution (ctn : String → String) (t : TypeDescriptor)
    (path : List String) :
    (t.options.name = "" ∧ path.length = 1 →
      createType ctn t path = .error "Missing required type name.") ∧
    (t.options.name ≠ "" →
      ∃ tc, createType ctn t path = .ok tc ∧ tc.name = t.options.name) ∧
    (t.options.name = "" → path.length ≠ 1 →
      ∃ tc, createType ctn t path = .ok tc ∧
        tc.name = ctn (String.intercalate " " path)) := by
  refine ⟨fun hc => by simp [createType, hc.1, hc.2], ?_, ?_⟩
  · intro hne
    cases ht : t.type with
    | object =>
        refine ⟨{ name := t.options.name, kind := TypeKind.object,
                  fields := t.options.fields, interfaces := [], resolvers := [],
                  isUserDefined := false }, ?_, rfl⟩
        simp [createType, hne, ht]
    | union =>
        refine ⟨{ name := t.options.name, kind := TypeKind.union, fields := [],
                  interfaces := [], resolvers := [], isUserDefined := false }, ?_, rfl⟩
        simp [createType, hne, ht]
  · intro h1 hlen
    cases ht : t.type with
    | object =>
        refine ⟨{ name := ctn (String.intercalate " " path), kind := TypeKind.object,
                  fields := t.options.fields, interfaces := [], resolvers := [],
                  isUserDefined := false }, ?_, rfl⟩
        simp [createType, h1, hlen, ht]
    | union =>
        refine ⟨{ name := ctn (String.intercalate " " path), kind := TypeKind.union,
                  fields := [], interfaces := [], resolvers := [],
                  isUserDefined := false }, ?_, rfl⟩
        simp [createType, h1, hlen, ht]

/-- C8 witness: a nameless descriptor at the top of its path fails,
an explicit name wins, and a nameless descriptor deeper in the path
gets the synthesized name. -/
theorem createType_name_resolution_witness :
    createType (fun s => s)
      { type := CreatedGraphQLType.object, options := { name := "", fields := [] } }
      [""] = .error "Missing required type name." ∧
    (∃ tc, createType (fun s => s)
        { type := CreatedGraphQLType.object, options := { name := "Post", fields := [] } }
        ["Post"] = .ok tc ∧ tc.name = "Post") ∧
    (∃ tc, createType (fun s => s)
        { type := CreatedGraphQLType.union, options := { name := "", fields := [] } }
        ["Post", "meta"] = .ok tc ∧
      tc.name = (fun s => s) (String.intercalate " " ["Post", "meta"])) :=
  ⟨(createType_name_resolution (fun s => s)
      { type := CreatedGraphQLType.object, options := { name := "", fields := [] } }
      [""]).1 ⟨rfl, rfl⟩,
   (createType_name_resolution (fun s => s)
      { type := CreatedGraphQLType.object, options := { name := "Post", fields := [] } }
      ["Post"]).2.1 (by decide),
   (createType_name_resolution (fun s => s)
      { type := CreatedGraphQLType.union, options := { name := "", fields := [] } }
      ["Post", "meta"]).2.2 rfl (by decide)⟩

/-- C9: a resolver overlay entry whose target field does not exist on
the target type throws unless the entry declares an explicit field
type, in which case the field is created fresh from the entry's
configuration. -/
theorem addResolvers_missing_field (sc : SchemaComposer) (tn : String) (tc : TypeComposer)
    (fn : String) (fo : FieldOptions)
    (hget : getOTC sc tn = .ok tc)
    (hno : tc.fields.lookup fn = none) :
    (fo.type = none →
      addResolversForType sc tn [(fn, fo)] =
        .error (tn ++ "." ++ fn ++ " must have a type property.")) ∧
    (∀ t, fo.type = some t →
      addResolversForType sc tn [(fn, fo)] =
        .ok (sc.setType (tc.addField fn
          { type := t, args := fo.args.getD [], resolve := some fo.resolve }))) := by
  constructor
  · intro hnone
    simp [addResolversForType, hget, applyResolverFields, addResolverField, hno, hnone]
  · intro t ht
    simp [addResolversForType, hget, applyResolverFields, addResolverField, hno, ht]

/-- C9 witness: a fresh field `bar` on the example type, once without
and once with a declared type. -/
theorem addResolvers_missing_field_witness :
    (addResolversForType exSC "Post"
        [("bar", { type := none, args := none, resolve := Resolve.user "r" })] =
      .error "Post.bar must have a type property.") ∧
    (addResolversForType exSC "Post"
        [("bar", { type := some (GType.single "Int"), args := none,
                   resolve := Resolve.user "r" })] =
      .ok (exSC.setType (exPost.addField "bar"
        { type := GType.single "Int", args := [], resolve := some (Resolve.user "r") }))) :=
  ⟨(addResolvers_missing_field exSC "Post" exPost "bar"
      { type := none, args := none, resolve := Resolve.user "r" } (by rfl) (by rfl)).1 rfl,
   (addResolvers_missing_field exSC "Post" exPost "bar"
      { type := some (GType.single "Int"), args := none, resolve := Resolve.user "r" }
      (by rfl) (by rfl)).2 (GType.single "Int") rfl⟩

/-- C10: a resolver overlay keyed by a type name not registered as an
Object type raises an error whose content does not depend on the
entry's fields — the build aborts before any field of that entry is
processed. -/
theorem addResolvers_unknown_type (sc : SchemaComposer) (tn : String)
    (h : ∀ tc, sc.get tn = some tc → tc.kind ≠ TypeKind.object) :
    ∃ msg, ∀ fields, addResolvers sc [(tn, fields)] = .error msg := by
  refine ⟨"Cannot find ObjectTypeComposer with name " ++ tn, fun fields => ?_⟩
  have hotc : getOTC sc tn =
      .error ("Cannot find ObjectTypeComposer with name " ++ tn) := by
    cases hg : sc.get tn with
    | none => simp [getOTC, hg]
    | some tc => simp [getOTC, hg, h tc hg]
  simp [addResolvers, addResolversForType, hotc]

/-- C10 witness: an overlay keyed by an unregistered type name. -/
theorem addResolvers_unknown_type_witness :
    ∃ msg, ∀ fields, addResolvers exSC [("Nope", fields)] = .error msg :=
  addResolvers_unknown_type exSC "Nope" (fun _ hg => Option.noConfusion hg)

end Gridsome
